import Mathlib

/-!
Verification of the MathOpt callback subsystem
(`ortools/math_opt/python/callback.py`).

The Python module is shallowly embedded: Python floats appearing in
constraint bounds and expression offsets become the type `Flt`
(a rational number or one of the two infinities, which is exact for every
value the claims exercise), Python dicts become insertion-ordered
association lists with overwrite-on-duplicate-key semantics, and raised
exceptions become `Except` errors.

Parts of the repository that `callback.py` calls but whose source is not
available (`model.py`, `sparse_containers.py`, the generated
`callback_pb2` protos) are modelled from the design spec; each such
definition carries a doc comment starting with `Modelled from the spec:`.
-/

/-- The error kinds of the callback subsystem (all surface as `ValueError`
or `TypeError` in Python; the spec distinguishes them by kind). -/
inductive CallbackError where
  | unknownVariableIdentifier (id : Nat)
  | invalidEventCode (code : Nat)
  | ambiguousConstraintSpecification
  | invalidConstraintBound
  | boundedExprIsBool
  | illegalActionForEvent
deriving DecidableEq, Repr

/-- A Python float as used for bounds and offsets: a finite (rational)
value or one of the two infinities.  NaN does not occur in the claims. -/
inductive Flt where
  | negInf
  | fin (q : ℚ)
  | posInf
deriving DecidableEq, Repr

/-- Subtracting a finite value from a `Flt` (used to fold a finite
expression offset into a bound: `lb - offset`). -/
def Flt.subFin : Flt → ℚ → Flt
  | .negInf, _ => .negInf
  | .fin p, q => .fin (p - q)
  | .posInf, _ => .posInf

/-- The seven members of the `Event` enum of `callback.py`. -/
inductive Event where
  | UNSPECIFIED
  | PRESOLVE
  | SIMPLEX
  | MIP
  | MIP_SOLUTION
  | MIP_NODE
  | BARRIER
deriving DecidableEq, Repr, Fintype

/-- Modelled from the spec: the integer event codes of the wire format
(`callback_pb2.CALLBACK_EVENT_*`), a closed set of seven distinct codes
in declaration order. -/
def Event.value : Event → Nat
  | .UNSPECIFIED => 0
  | .PRESOLVE => 1
  | .SIMPLEX => 2
  | .MIP => 3
  | .MIP_SOLUTION => 4
  | .MIP_NODE => 5
  | .BARRIER => 6

/-- `Event(code)` of Python: maps a raw event code to an `Event` member,
raising `ValueError` ("invalid event code") on any unrecognized code. -/
def eventOfCode (code : Nat) : Except CallbackError Event :=
  match code with
  | 0 => .ok .UNSPECIFIED
  | 1 => .ok .PRESOLVE
  | 2 => .ok .SIMPLEX
  | 3 => .ok .MIP
  | 4 => .ok .MIP_SOLUTION
  | 5 => .ok .MIP_NODE
  | 6 => .ok .BARRIER
  | c => .error (.invalidEventCode c)

/-- Modelled from the spec: a variable handle of the model
(`model.Variable`), identified inside a fixed model by its integer id. -/
structure Variable where
  id : Nat
deriving DecidableEq, Repr

/-- Modelled from the spec: the model's variable namespace (`model.Model`),
reduced to the read-only facet the callback subsystem uses — the set of
variable ids that resolve. -/
structure Model where
  variable_ids : List Nat
deriving DecidableEq, Repr

/-- Modelled from the spec: `Model.get_variable` — read-only variable-handle
resolution by integer identifier; fails with an unknown-identifier error
if the id has no corresponding variable in the model. -/
def Model.get_variable (mod : Model) (id : Nat) : Except CallbackError Variable :=
  if id ∈ mod.variable_ids then .ok ⟨id⟩
  else .error (.unknownVariableIdentifier id)

/-- Insertion into a Python dict modelled as an insertion-ordered
association list: a duplicate key overwrites the stored value in place,
a new key is appended at the end. -/
def dictInsert (m : List (Variable × ℚ)) (k : Variable) (v : ℚ) :
    List (Variable × ℚ) :=
  if m.any (fun p => decide (p.1 = k)) then
    m.map (fun p => if p.1 = k then (k, v) else p)
  else m ++ [(k, v)]

/-- The dict comprehension of `parse_callback_data`:
`{mod.get_variable(id): val for (id, val) in zip(ids, values)}`, evaluated
left to right, propagating the first unknown-identifier error. -/
def decodePrimalSolution (mod : Model) :
    List (Nat × ℚ) → List (Variable × ℚ) →
    Except CallbackError (List (Variable × ℚ))
  | [], acc => .ok acc
  | (id, val) :: rest, acc =>
    match mod.get_variable id with
    | .error e => .error e
    | .ok v => decodePrimalSolution mod rest (dictInsert acc v val)

/-- Modelled from the spec: the opaque presolve statistics block
(`callback_pb2.CallbackDataProto.PresolveStats`), copied verbatim. -/
structure PresolveStats where
  raw : Nat := 0
deriving DecidableEq, Repr

/-- Modelled from the spec: the opaque simplex statistics block. -/
structure SimplexStats where
  raw : Nat := 0
deriving DecidableEq, Repr

/-- Modelled from the spec: the opaque barrier statistics block. -/
structure BarrierStats where
  raw : Nat := 0
deriving DecidableEq, Repr

/-- Modelled from the spec: the opaque MIP statistics block. -/
structure MipStats where
  raw : Nat := 0
deriving DecidableEq, Repr

/-- Modelled from the spec: the sparse primal-solution vector of the wire
format — parallel id/value sequences. -/
structure SparseDoubleVectorProto where
  ids : List Nat := []
  values : List ℚ := []
deriving DecidableEq, Repr

/-- Modelled from the spec: the inbound event payload
(`callback_pb2.CallbackDataProto`) — an event-code integer, an optional
sparse primal-solution vector, an elapsed-time value (modelled as a
rational duration), and four opaque statistics blocks. -/
structure CallbackDataProto where
  event : Nat := 0
  primal_solution_vector : Option SparseDoubleVectorProto := none
  runtime : ℚ := 0
  presolve_stats : PresolveStats := {}
  simplex_stats : SimplexStats := {}
  barrier_stats : BarrierStats := {}
  mip_stats : MipStats := {}
deriving DecidableEq, Repr

/-- `CallbackData` of `callback.py`: the typed snapshot delivered to the
user callback.  The `solution` dict is an insertion-ordered association
list; defaults mirror the dataclass defaults. -/
structure CallbackData where
  event : Event := .UNSPECIFIED
  solution : Option (List (Variable × ℚ)) := none
  messages : List String := []
  runtime : ℚ := 0
  presolve_stats : PresolveStats := {}
  simplex_stats : SimplexStats := {}
  barrier_stats : BarrierStats := {}
  mip_stats : MipStats := {}
deriving DecidableEq, Repr

/-- `parse_callback_data` of `callback.py`: maps the raw event code to an
`Event` (ValueError on an unknown code), decodes the primal-solution
vector into `solution` when the field is present (the ids and values are
paired by `zip`, and each id is resolved through `Model.get_variable`),
copies the runtime and the four statistics blocks, and never sets
`messages`. -/
def parse_callback_data (cb_data : CallbackDataProto) (mod : Model) :
    Except CallbackError CallbackData :=
  match eventOfCode cb_data.event with
  | .error e => .error e
  | .ok ev =>
    match cb_data.primal_solution_vector with
    | none =>
      .ok { event := ev, solution := none, messages := [],
            runtime := cb_data.runtime,
            presolve_stats := cb_data.presolve_stats,
            simplex_stats := cb_data.simplex_stats,
            barrier_stats := cb_data.barrier_stats,
            mip_stats := cb_data.mip_stats }
    | some v =>
      match decodePrimalSolution mod (v.ids.zip v.values) [] with
      | .error e => .error e
      | .ok m =>
        .ok { event := ev, solution := some m, messages := [],
              runtime := cb_data.runtime,
              presolve_stats := cb_data.presolve_stats,
              simplex_stats := cb_data.simplex_stats,
              barrier_stats := cb_data.barrier_stats,
              mip_stats := cb_data.mip_stats }

/-- Modelled from the spec: a sparse variable-filter specification
(`sparse_containers.VariableFilter`), opaque to the callback subsystem and
embedded verbatim in the registration wire form. -/
structure VariableFilter where
  raw : Nat := 0
deriving DecidableEq, Repr

/-- `CallbackRegistration` of `callback.py`.  `events` is a Python set,
modelled as a duplicate-free list (theorems hypothesize `Nodup`). -/
structure CallbackRegistration where
  events : List Event := []
  mip_solution_filter : VariableFilter := {}
  mip_node_filter : VariableFilter := {}
  add_cuts : Bool := false
  add_lazy_constraints : Bool := false
deriving DecidableEq, Repr

/-- Modelled from the spec: the registration wire form
(`callback_pb2.CallbackRegistrationProto`). -/
structure CallbackRegistrationProto where
  request_registration : List Nat := []
  mip_solution_filter : VariableFilter := {}
  mip_node_filter : VariableFilter := {}
  add_cuts : Bool := false
  add_lazy_constraints : Bool := false
deriving DecidableEq, Repr

/-- `CallbackRegistration.to_proto` of `callback.py`:
`sorted([event.value for event in self.events])` plus verbatim copies of
the filters and flags. -/
def CallbackRegistration.to_proto (reg : CallbackRegistration) :
    CallbackRegistrationProto :=
  { request_registration :=
      List.insertionSort (· ≤ ·) (reg.events.map Event.value),
    mip_solution_filter := reg.mip_solution_filter,
    mip_node_filter := reg.mip_node_filter,
    add_cuts := reg.add_cuts,
    add_lazy_constraints := reg.add_lazy_constraints }

/-- `GeneratedConstraint` of `callback.py`: a bounded linear constraint
`lower_bound <= sum terms <= upper_bound` plus the lazy/cut tag.  `terms`
is a mapping variable → coefficient (association list, unique keys by
construction). -/
structure GeneratedConstraint where
  terms : List (Variable × ℚ) := []
  lower_bound : Flt := .negInf
  upper_bound : Flt := .posInf
  is_lazy : Bool := false
deriving DecidableEq, Repr

/-- A linear expression (`model.LinearTypes`): variable terms (possibly
with repeated variables, as in `x + x`) plus a constant offset. -/
structure LinExpr where
  terms : List (Variable × ℚ) := []
  offset : Flt := .fin 0
deriving DecidableEq, Repr

/-- Adding one term into a coefficient mapping: a repeated variable has
its coefficients summed, a new variable is appended. -/
def addTerm (m : List (Variable × ℚ)) (k : Variable) (c : ℚ) :
    List (Variable × ℚ) :=
  if m.any (fun p => decide (p.1 = k)) then
    m.map (fun p => if p.1 = k then (p.1, p.2 + c) else p)
  else m ++ [(k, c)]

/-- Flattening an expression's term list into a coefficient mapping with
unique variables. -/
def flattenTerms (terms : List (Variable × ℚ)) : List (Variable × ℚ) :=
  terms.foldl (fun m p => addTerm m p.1 p.2) []

/-- A bounded linear inequality (`model.BoundedLinearTypes`), as produced
by the overloaded comparison operators: one-sided `expr >= lb`, one-sided
`expr <= ub`, or two-sided `(lb <= expr) <= ub`.  `ofBool` stands for the
plain `bool` a chained comparison degenerates to when the required
parentheses are omitted. -/
inductive BoundedLinearExpression where
  | lowerBounded (expr : LinExpr) (lb : Flt)
  | upperBounded (expr : LinExpr) (ub : Flt)
  | bounded (lb : Flt) (expr : LinExpr) (ub : Flt)
  | ofBool (b : Bool)
deriving DecidableEq, Repr

/-- The normalized `(lb, coefficients, ub)` triple
(`model.NormalizedLinearInequality`): the expression offset has been
folded into both bounds and the coefficient mapping has unique
variables. -/
structure NormalizedLinearInequality where
  lb : Flt
  coefficients : List (Variable × ℚ)
  ub : Flt
deriving DecidableEq, Repr

/-- Folds a finite offset into the bounds; an infinite offset fails with
an invalid-bound error. -/
def normalizeInequality (lb : Flt) (e : LinExpr) (ub : Flt) :
    Except CallbackError NormalizedLinearInequality :=
  match e.offset with
  | .fin q => .ok ⟨lb.subFin q, flattenTerms e.terms, ub.subFin q⟩
  | _ => .error .invalidConstraintBound

/-- Modelled from the spec: `model.as_normalized_linear_inequality` — the
two mutually exclusive call shapes.  Supplying a bounded expression
together with any of `lb`, `ub`, `expr` fails with an
ambiguous-constraint-specification error; a bare `bool` bounded
expression fails with a `TypeError`; omitted `lb`/`ub`/`expr` default to
`-inf`/`+inf`/the zero expression; the expression offset is folded into
the bounds and must be finite. -/
def as_normalized_linear_inequality (bounded_expr : Option BoundedLinearExpression)
    (lb ub : Option Flt) (expr : Option LinExpr) :
    Except CallbackError NormalizedLinearInequality :=
  match bounded_expr with
  | none =>
    normalizeInequality (lb.getD .negInf) (expr.getD {}) (ub.getD .posInf)
  | some be =>
    if lb ≠ none ∨ ub ≠ none ∨ expr ≠ none then
      .error .ambiguousConstraintSpecification
    else
      match be with
      | .lowerBounded e l => normalizeInequality l e .posInf
      | .upperBounded e u => normalizeInequality .negInf e u
      | .bounded l e u => normalizeInequality l e u
      | .ofBool _ => .error .boundedExprIsBool

/-- Modelled from the spec: a generated constraint in wire form
(`callback_pb2.CallbackResultProto.GeneratedLinearConstraint`). -/
structure GeneratedLinearConstraintProto where
  is_lazy : Bool := false
  lower_bound : Flt := .negInf
  upper_bound : Flt := .posInf
  linear_expression : SparseDoubleVectorProto := {}
deriving DecidableEq, Repr

/-- Modelled from the spec: `sparse_containers.to_sparse_double_vector_proto`
— encodes a variable → value mapping into parallel id/value sequences,
ids sorted in increasing order with no duplicates (the deterministic wire
ordering). -/
def to_sparse_double_vector_proto (terms : List (Variable × ℚ)) :
    SparseDoubleVectorProto :=
  let sorted := List.insertionSort (fun a b => a.1.id ≤ b.1.id) terms
  { ids := sorted.map (fun p => p.1.id), values := sorted.map (fun p => p.2) }

/-- `GeneratedConstraint.to_proto` of `callback.py`. -/
def GeneratedConstraint.to_proto (c : GeneratedConstraint) :
    GeneratedLinearConstraintProto :=
  { is_lazy := c.is_lazy, lower_bound := c.lower_bound,
    upper_bound := c.upper_bound,
    linear_expression := to_sparse_double_vector_proto c.terms }

/-- Modelled from the spec: the outbound result wire form
(`callback_pb2.CallbackResultProto`). -/
structure CallbackResultProto where
  terminate : Bool := false
  cuts : List GeneratedLinearConstraintProto := []
  suggested_solutions : List SparseDoubleVectorProto := []
deriving DecidableEq, Repr

/-- `CallbackResult` of `callback.py`: the user's response. -/
structure CallbackResult where
  terminate : Bool := false
  generated_constraints : List GeneratedConstraint := []
  suggested_solutions : List (List (Variable × ℚ)) := []
deriving DecidableEq, Repr

/-- `CallbackResult.add_generated_constraint` of `callback.py`: normalizes
the arguments through `as_normalized_linear_inequality` — any error
propagates before the list is touched — then appends the new
`GeneratedConstraint`. -/
def CallbackResult.add_generated_constraint (r : CallbackResult)
    (bounded_expr : Option BoundedLinearExpression) (lb ub : Option Flt)
    (expr : Option LinExpr) (is_lazy : Bool) :
    Except CallbackError CallbackResult :=
  match as_normalized_linear_inequality bounded_expr lb ub expr with
  | .error e => .error e
  | .ok n =>
    .ok { r with generated_constraints := r.generated_constraints ++
            [{ terms := n.coefficients, lower_bound := n.lb,
               upper_bound := n.ub, is_lazy := is_lazy }] }

/-- `CallbackResult.add_lazy_constraint` of `callback.py`. -/
def CallbackResult.add_lazy_constraint (r : CallbackResult)
    (bounded_expr : Option BoundedLinearExpression) (lb ub : Option Flt)
    (expr : Option LinExpr) : Except CallbackError CallbackResult :=
  r.add_generated_constraint bounded_expr lb ub expr true

/-- `CallbackResult.add_user_cut` of `callback.py`. -/
def CallbackResult.add_user_cut (r : CallbackResult)
    (bounded_expr : Option BoundedLinearExpression) (lb ub : Option Flt)
    (expr : Option LinExpr) : Except CallbackError CallbackResult :=
  r.add_generated_constraint bounded_expr lb ub expr false

/-- `CallbackResult.to_proto` of `callback.py`. -/
def CallbackResult.to_proto (r : CallbackResult) : CallbackResultProto :=
  { terminate := r.terminate,
    cuts := r.generated_constraints.map GeneratedConstraint.to_proto,
    suggested_solutions :=
      r.suggested_solutions.map to_sparse_double_vector_proto }

/-- Modelled from the spec: the Event Model's legality check for one
generated constraint — a user cut is legal only at `MIP_NODE` with
`add_cuts` set, a lazy constraint only at `MIP_NODE` or `MIP_SOLUTION`
with `add_lazy_constraints` set. -/
def constraintLegal (reg : CallbackRegistration) (event : Event)
    (c : GeneratedConstraint) : Bool :=
  if c.is_lazy then
    (decide (event = .MIP_NODE) || decide (event = .MIP_SOLUTION)) &&
      reg.add_lazy_constraints
  else
    decide (event = .MIP_NODE) && reg.add_cuts

/-- Modelled from the spec: `validateResultAction` of the Event Model —
fails with an illegal-action-for-event error when any generated
constraint of the result is not legal for the event under the
registration's allow-flags. -/
def validateResultAction (reg : CallbackRegistration) (event : Event)
    (res : CallbackResult) : Except CallbackError Unit :=
  if res.generated_constraints.all (constraintLegal reg event) then .ok ()
  else .error .illegalActionForEvent

/-! ### Helper lemmas about the primal-solution decoder -/

lemma dictInsert_eq_append (m : List (Variable × ℚ)) (k : Variable) (v : ℚ)
    (h : ∀ q ∈ m, q.1 ≠ k) : dictInsert m k v = m ++ [(k, v)] := by
  have hany : m.any (fun p => decide (p.1 = k)) = false := by
    simp only [List.any_eq_false, decide_eq_true_eq]
    exact h
  unfold dictInsert
  rw [hany]
  simp

lemma decodePrimalSolution_ok (mod : Model) :
    ∀ (pairs : List (Nat × ℚ)) (acc : List (Variable × ℚ)),
      (∀ p ∈ pairs, p.1 ∈ mod.variable_ids) →
      ∃ m, decodePrimalSolution mod pairs acc = .ok m := by
  intro pairs
  induction pairs with
  | nil => exact fun acc _ => ⟨acc, rfl⟩
  | cons hd tl ih =>
    intro acc h
    obtain ⟨id, val⟩ := hd
    have hid : id ∈ mod.variable_ids := h (id, val) (List.mem_cons_self _ _)
    obtain ⟨m, hm⟩ :=
      ih (dictInsert acc ⟨id⟩ val) (fun p hp => h p (List.mem_cons_of_mem _ hp))
    exact ⟨m, by simp [decodePrimalSolution, Model.get_variable, hid, hm]⟩

lemma decodePrimalSolution_nodup (mod : Model) :
    ∀ (pairs : List (Nat × ℚ)) (acc : List (Variable × ℚ)),
      (∀ p ∈ pairs, p.1 ∈ mod.variable_ids) →
      (pairs.map Prod.fst).Nodup →
      (∀ p ∈ pairs, ∀ q ∈ acc, q.1 ≠ (⟨p.1⟩ : Variable)) →
      decodePrimalSolution mod pairs acc
        = .ok (acc ++ pairs.map fun p => ((⟨p.1⟩ : Variable), p.2)) := by
  intro pairs
  induction pairs with
  | nil => intro acc _ _ _; simp [decodePrimalSolution]
  | cons hd tl ih =>
    intro acc hmem hnd hdisj
    obtain ⟨id, val⟩ := hd
    have hid : id ∈ mod.variable_ids := hmem (id, val) (List.mem_cons_self _ _)
    have hacc : ∀ q ∈ acc, q.1 ≠ (⟨id⟩ : Variable) :=
      hdisj (id, val) (List.mem_cons_self _ _)
    have hstep : decodePrimalSolution mod ((id, val) :: tl) acc
        = decodePrimalSolution mod tl (dictInsert acc ⟨id⟩ val) := by
      simp [decodePrimalSolution, Model.get_variable, hid]
    have hid_not_tl : id ∉ tl.map Prod.fst := by
      have := hnd
      simp only [List.map_cons, List.nodup_cons] at this
      exact this.1
    have hdisj' : ∀ p ∈ tl, ∀ q ∈ acc ++ [((⟨id⟩ : Variable), val)],
        q.1 ≠ (⟨p.1⟩ : Variable) := by
      intro p hp q hq
      rcases List.mem_append.mp hq with hq | hq
      · exact hdisj p (List.mem_cons_of_mem _ hp) q hq
      · have hq' : q = ((⟨id⟩ : Variable), val) := by simpa using hq
        subst hq'
        intro hcontr
        apply hid_not_tl
        have : id = p.1 := by simpa [Variable.mk.injEq] using hcontr
        exact this ▸ List.mem_map_of_mem Prod.fst hp
    have hnd' : (tl.map Prod.fst).Nodup := by
      simp only [List.map_cons, List.nodup_cons] at hnd
      exact hnd.2
    have hrec := ih (acc ++ [(({ id := id } : Variable), val)])
      (fun p hp => hmem p (List.mem_cons_of_mem _ hp)) hnd' hdisj'
    rw [hstep, dictInsert_eq_append _ _ _ hacc, hrec]
    simp

lemma decodePrimalSolution_error (mod : Model) :
    ∀ (pairs : List (Nat × ℚ)) (acc : List (Variable × ℚ)),
      (∃ p ∈ pairs, p.1 ∉ mod.variable_ids) →
      ∃ i, i ∉ mod.variable_ids ∧
        decodePrimalSolution mod pairs acc
          = .error (.unknownVariableIdentifier i) := by
  intro pairs
  induction pairs with
  | nil => intro acc h; simp at h
  | cons hd tl ih =>
    intro acc h
    obtain ⟨id, val⟩ := hd
    by_cases hid : id ∈ mod.variable_ids
    · have htl : ∃ p ∈ tl, p.1 ∉ mod.variable_ids := by
        obtain ⟨p, hp, hpn⟩ := h
        rcases List.mem_cons.mp hp with rfl | hp
        · exact absurd hid hpn
        · exact ⟨p, hp, hpn⟩
      obtain ⟨i, hi, hdec⟩ := ih (dictInsert acc ⟨id⟩ val) htl
      exact ⟨i, hi, by simp [decodePrimalSolution, Model.get_variable, hid, hdec]⟩
    · exact ⟨id, hid, by simp [decodePrimalSolution, Model.get_variable, hid]⟩

lemma zip_take_min {α β : Type} (l1 : List α) (l2 : List β) :
    (l1.take (min l1.length l2.length)).zip
      (l2.take (min l1.length l2.length)) = l1.zip l2 := by
  induction l1 generalizing l2 with
  | nil => simp
  | cons a t ih =>
    cases l2 with
    | nil => simp
    | cons b t2 => simp [Nat.succ_min_succ, ih]

/-! ### Claim theorems -/

/-- C10: For every input payload and model, the `CallbackData` returned by
`parse_callback_data` has `messages` equal to the empty list:
`parse_callback_data` never populates the `messages` field, regardless of
the event or of any field present in the payload. -/
theorem parse_callback_data_messages_empty (cb_data : CallbackDataProto)
    (mod : Model) (d : CallbackData)
    (h : parse_callback_data cb_data mod = .ok d) : d.messages = [] := by
  unfold parse_callback_data at h
  split at h
  · exact absurd h (by simp)
  · split at h
    · cases Except.ok.inj h
      rfl
    · split at h
      · exact absurd h (by simp)
      · cases Except.ok.inj h
        rfl

/-- Payload used in the C10 witness: a MIP_SOLUTION event with a
primal-solution vector. -/
def cbDataW10 : CallbackDataProto :=
  { event := 4, primal_solution_vector := some { ids := [0], values := [3] } }

/-- Model used in the C10 witness. -/
def modW10 : Model := { variable_ids := [0, 1] }

/-- Result of parsing `cbDataW10` against `modW10`. -/
def dW10 : CallbackData :=
  { event := .MIP_SOLUTION, solution := some [({ id := 0 }, 3)] }

/-- C10 witness: the theorem applied at a concrete payload and model. -/
theorem parse_callback_data_messages_empty_witness : dW10.messages = [] :=
  parse_callback_data_messages_empty cbDataW10 modW10 dW10 rfl

/-- C7: For every `CallbackRegistration` (its `events` field is a Python
set, hence duplicate-free), the sequence of event codes produced by
`to_proto` in `request_registration` is sorted in increasing order and
contains no duplicate codes. -/
theorem to_proto_request_registration_sorted_nodup
    (reg : CallbackRegistration) (h : reg.events.Nodup) :
    List.Sorted (· ≤ ·) reg.to_proto.request_registration ∧
      reg.to_proto.request_registration.Nodup := by
  have hinj : Function.Injective Event.value := by decide
  constructor
  · exact List.sorted_insertionSort _ _
  · exact (List.perm_insertionSort (· ≤ ·)
      (reg.events.map Event.value)).nodup_iff.mpr (h.map hinj)

/-- Registration used in the C7 witness: three events given out of
order. -/
def regW7 : CallbackRegistration :=
  { events := [.MIP_NODE, .PRESOLVE, .BARRIER], add_cuts := true }

/-- C7 witness: the theorem applied at a concrete registration. -/
theorem to_proto_request_registration_sorted_nodup_witness :
    List.Sorted (· ≤ ·) regW7.to_proto.request_registration ∧
      regW7.to_proto.request_registration.Nodup :=
  to_proto_request_registration_sorted_nodup regW7 (by decide)

/-- C8: a `CallbackResult` containing a `GeneratedConstraint` with
`is_lazy = true`, built under a `CallbackRegistration` with
`add_lazy_constraints = false`, fails validation against the Event Model
with an illegal-action-for-event error, at any event. -/
theorem validateResultAction_lazy_not_allowed (reg : CallbackRegistration)
    (event : Event) (res : CallbackResult) (c : GeneratedConstraint)
    (hc : c ∈ res.generated_constraints) (hlazy : c.is_lazy = true)
    (hflag : reg.add_lazy_constraints = false) :
    validateResultAction reg event res = .error .illegalActionForEvent := by
  unfold validateResultAction
  rw [if_neg]
  intro hall
  rw [List.all_eq_true] at hall
  have hcl := hall c hc
  simp [constraintLegal, hlazy, hflag] at hcl

/-- Registration used in the C8 witness: lazy constraints not allowed. -/
def regW8 : CallbackRegistration := { events := [.MIP_SOLUTION] }

/-- Result used in the C8 witness: one lazy constraint. -/
def resW8 : CallbackResult :=
  { generated_constraints :=
      [{ terms := [({ id := 0 }, 1)], lower_bound := .fin 1, is_lazy := true }] }

/-- C8 witness: the theorem applied at a concrete registration, event and
result. -/
theorem validateResultAction_lazy_not_allowed_witness :
    validateResultAction regW8 .MIP_SOLUTION resW8
      = .error .illegalActionForEvent :=
  validateResultAction_lazy_not_allowed regW8 .MIP_SOLUTION resW8
    { terms := [({ id := 0 }, 1)], lower_bound := .fin 1, is_lazy := true }
    (by decide) rfl rfl

/-- C4: for every `CallbackResult`, calling `add_generated_constraint`
with both a bounded inequality expression and any of the explicit `lb`,
`ub`, or `expr` keyword fields fails with an
ambiguous-constraint-specification error; no constraint is appended
(the call produces no updated result at all). -/
theorem add_generated_constraint_ambiguous (r : CallbackResult)
    (be : BoundedLinearExpression) (lb ub : Option Flt)
    (expr : Option LinExpr) (is_lazy : Bool)
    (h : lb ≠ none ∨ ub ≠ none ∨ expr ≠ none) :
    r.add_generated_constraint (some be) lb ub expr is_lazy
      = .error .ambiguousConstraintSpecification := by
  have hred : as_normalized_linear_inequality (some be) lb ub expr
      = if lb ≠ none ∨ ub ≠ none ∨ expr ≠ none then
          .error .ambiguousConstraintSpecification
        else
          match be with
          | .lowerBounded e l => normalizeInequality l e .posInf
          | .upperBounded e u => normalizeInequality .negInf e u
          | .bounded l e u => normalizeInequality l e u
          | .ofBool _ => .error .boundedExprIsBool := rfl
  have hn : as_normalized_linear_inequality (some be) lb ub expr
      = .error .ambiguousConstraintSpecification := by
    rw [hred, if_pos h]
  unfold CallbackResult.add_generated_constraint
  rw [hn]

/-- C4 witness: the theorem applied with a concrete bounded expression and
an explicit lower bound supplied together. -/
theorem add_generated_constraint_ambiguous_witness :
    CallbackResult.add_generated_constraint {}
        (some (.upperBounded { terms := [({ id := 0 }, 1)] } (.fin 2)))
        (some (.fin 1)) none none true
      = .error .ambiguousConstraintSpecification :=
  add_generated_constraint_ambiguous {}
    (.upperBounded { terms := [({ id := 0 }, 1)] } (.fin 2))
    (some (.fin 1)) none none true (by simp)

/-- C5: for every `CallbackResult` and distinct variables `x`, `y`,
calling `add_generated_constraint` with the two-sided inequality
expression `(1.0 <= x + y) <= 2.0` appends exactly one
`GeneratedConstraint` with `lower_bound = 1.0`, `upper_bound = 2.0` and
`terms = {x: 1.0, y: 1.0}`. -/
theorem add_generated_constraint_two_sided (r : CallbackResult)
    (x y : Variable) (is_lazy : Bool) (hxy : x ≠ y) :
    r.add_generated_constraint
        (some (.bounded (.fin 1) { terms := [(x, 1), (y, 1)], offset := .fin 0 }
          (.fin 2))) none none none is_lazy
      = .ok { r with generated_constraints := r.generated_constraints ++
          [{ terms := [(x, 1), (y, 1)], lower_bound := .fin 1,
             upper_bound := .fin 2, is_lazy := is_lazy }] } := by
  simp [CallbackResult.add_generated_constraint,
    as_normalized_linear_inequality, normalizeInequality, flattenTerms,
    addTerm, Flt.subFin, hxy]

/-- C5 witness: the theorem applied at concrete distinct variables. -/
theorem add_generated_constraint_two_sided_witness :
    CallbackResult.add_generated_constraint {}
        (some (.bounded (.fin 1)
          { terms := [({ id := 0 }, 1), ({ id := 1 }, 1)], offset := .fin 0 }
          (.fin 2))) none none none true
      = .ok { generated_constraints :=
          [{ terms := [({ id := 0 }, 1), ({ id := 1 }, 1)],
             lower_bound := .fin 1, upper_bound := .fin 2,
             is_lazy := true }] } :=
  add_generated_constraint_two_sided {} { id := 0 } { id := 1 } true (by decide)

/-- C6: for every `CallbackResult`, distinct variables `x`, `y` and lazy
flag, `add_generated_constraint(expr=x+y, lb=2.0)` and
`add_generated_constraint(x + y >= 2.0)` return equal results, each
appending the same `GeneratedConstraint` with `lower_bound = 2.0`,
`upper_bound = +infinity` and `terms = {x: 1.0, y: 1.0}`. -/
theorem add_generated_constraint_expr_lb_eq_bounded (r : CallbackResult)
    (x y : Variable) (is_lazy : Bool) (hxy : x ≠ y) :
    r.add_generated_constraint none (some (.fin 2)) none
        (some { terms := [(x, 1), (y, 1)], offset := .fin 0 }) is_lazy
      = r.add_generated_constraint
          (some (.lowerBounded { terms := [(x, 1), (y, 1)], offset := .fin 0 }
            (.fin 2))) none none none is_lazy
    ∧ r.add_generated_constraint none (some (.fin 2)) none
        (some { terms := [(x, 1), (y, 1)], offset := .fin 0 }) is_lazy
      = .ok { r with generated_constraints := r.generated_constraints ++
          [{ terms := [(x, 1), (y, 1)], lower_bound := .fin 2,
             upper_bound := .posInf, is_lazy := is_lazy }] } := by
  constructor <;>
    simp [CallbackResult.add_generated_constraint,
      as_normalized_linear_inequality, normalizeInequality, flattenTerms,
      addTerm, Flt.subFin, hxy]

/-- C6 witness: the theorem applied at concrete distinct variables. -/
theorem add_generated_constraint_expr_lb_eq_bounded_witness :
    CallbackResult.add_generated_constraint {} none (some (.fin 2)) none
        (some { terms := [({ id := 0 }, 1), ({ id := 1 }, 1)],
                offset := .fin 0 }) false
      = CallbackResult.add_generated_constraint {}
          (some (.lowerBounded
            { terms := [({ id := 0 }, 1), ({ id := 1 }, 1)],
              offset := .fin 0 } (.fin 2))) none none none false
    ∧ CallbackResult.add_generated_constraint {} none (some (.fin 2)) none
        (some { terms := [({ id := 0 }, 1), ({ id := 1 }, 1)],
                offset := .fin 0 }) false
      = .ok { generated_constraints :=
          [{ terms := [({ id := 0 }, 1), ({ id := 1 }, 1)],
             lower_bound := .fin 2, upper_bound := .posInf,
             is_lazy := false }] } :=
  add_generated_constraint_expr_lb_eq_bounded {} { id := 0 } { id := 1 }
    false (by decide)

/-- Model used in the C1 counterexample: only variable id 0 exists. -/
def modC1 : Model := { variable_ids := [0] }

/-- Payload used in the C1 counterexample: the primal-solution vector
names ids 0 and 1 but carries a single value, so `zip` drops id 1. -/
def cbDataC1 : CallbackDataProto :=
  { event := 4,
    primal_solution_vector := some { ids := [0, 1], values := [5] } }

/-- C1 counterexample: the payload's primal-solution vector contains the
variable id 1, which has no corresponding variable in the model, yet
`parse_callback_data` raises no error and returns a `CallbackData` whose
solution is the partial mapping containing only the resolvable id 0 —
refuting the claim that it always fails in that situation. -/
theorem parse_callback_data_unknown_id_counterexample :
    (∃ v, cbDataC1.primal_solution_vector = some v ∧ 1 ∈ v.ids) ∧
    1 ∉ modC1.variable_ids ∧
    parse_callback_data cbDataC1 modC1
      = .ok { event := .MIP_SOLUTION, solution := some [({ id := 0 }, 5)] } :=
  ⟨⟨{ ids := [0, 1], values := [5] }, rfl, by decide⟩, by decide, rfl⟩

/-- C1 (amended): for every payload whose event code is valid, if some
variable id among the zipped id/value pairs of the primal-solution vector
(the first `min(len(ids), len(values))` entries) has no corresponding
variable in the model, then `parse_callback_data` fails with an
unknown-identifier error and returns no result at all. -/
theorem parse_callback_data_unknown_id_fails (cb_data : CallbackDataProto)
    (mod : Model) (v : SparseDoubleVectorProto) (e : Event)
    (hev : eventOfCode cb_data.event = .ok e)
    (hv : cb_data.primal_solution_vector = some v)
    (hbad : ∃ p ∈ v.ids.zip v.values, p.1 ∉ mod.variable_ids) :
    ∃ i, i ∉ mod.variable_ids ∧
      parse_callback_data cb_data mod
        = .error (.unknownVariableIdentifier i) := by
  obtain ⟨i, hi, hdec⟩ :=
    decodePrimalSolution_error mod (v.ids.zip v.values) [] hbad
  exact ⟨i, hi, by simp only [parse_callback_data, hev, hv, hdec]⟩

/-- C1 witness for the amended claim: a concrete payload whose zipped
pairs name the unknown id 1. -/
theorem parse_callback_data_unknown_id_fails_witness :
    ∃ i, i ∉ modC1.variable_ids ∧
      parse_callback_data
          { event := 4,
            primal_solution_vector := some { ids := [1], values := [3] } }
          modC1
        = .error (.unknownVariableIdentifier i) :=
  parse_callback_data_unknown_id_fails
    { event := 4,
      primal_solution_vector := some { ids := [1], values := [3] } }
    modC1 { ids := [1], values := [3] } .MIP_SOLUTION rfl rfl
    ⟨(1, 3), by decide, by decide⟩

/-- C2: for every payload whose event code is MIP_SOLUTION and whose
primal-solution vector is present with pairwise-distinct ids, all
resolvable in the model and with as many ids as values,
`parse_callback_data` returns a `CallbackData` whose solution mapping's
keys are exactly the variables named by those ids and whose number of
entries equals the vector length. -/
theorem parse_callback_data_mip_solution_keys (cb_data : CallbackDataProto)
    (mod : Model) (v : SparseDoubleVectorProto)
    (hev : cb_data.event = 4)
    (hv : cb_data.primal_solution_vector = some v)
    (hlen : v.ids.length = v.values.length)
    (hnd : v.ids.Nodup)
    (hmem : ∀ id ∈ v.ids, id ∈ mod.variable_ids) :
    ∃ d, parse_callback_data cb_data mod = .ok d ∧
      d.event = .MIP_SOLUTION ∧
      ∃ m, d.solution = some m ∧
        m.map Prod.fst = v.ids.map Variable.mk ∧
        m.length = v.ids.length := by
  have hmem' : ∀ p ∈ v.ids.zip v.values, p.1 ∈ mod.variable_ids := by
    intro p hp
    obtain ⟨a, b⟩ := p
    exact hmem a (List.of_mem_zip hp).1
  have hndz : ((v.ids.zip v.values).map Prod.fst).Nodup := by
    rw [List.map_fst_zip _ _ hlen.le]
    exact hnd
  have hm : decodePrimalSolution mod (v.ids.zip v.values) []
      = .ok ((v.ids.zip v.values).map
          fun p => ((⟨p.1⟩ : Variable), p.2)) := by
    simpa using
      decodePrimalSolution_nodup mod (v.ids.zip v.values) [] hmem' hndz
        (by simp)
  have he4 : eventOfCode 4 = .ok .MIP_SOLUTION := rfl
  have hfst : (v.ids.zip v.values).map Prod.fst = v.ids :=
    List.map_fst_zip _ _ hlen.le
  refine ⟨{ event := .MIP_SOLUTION,
            solution := some ((v.ids.zip v.values).map
              fun p => ((⟨p.1⟩ : Variable), p.2)),
            messages := [], runtime := cb_data.runtime,
            presolve_stats := cb_data.presolve_stats,
            simplex_stats := cb_data.simplex_stats,
            barrier_stats := cb_data.barrier_stats,
            mip_stats := cb_data.mip_stats }, ?_, rfl, ?_⟩
  · simp only [parse_callback_data, hev, hv, he4, hm]
  · refine ⟨_, rfl, ?_, ?_⟩
    · have hrhs : v.ids.map Variable.mk
          = (v.ids.zip v.values).map (fun p => (⟨p.1⟩ : Variable)) := by
        conv_lhs => rw [← hfst]
        rw [List.map_map]
        rfl
      rw [List.map_map, hrhs]
      rfl
    · simp [List.length_zip, hlen]

/-- C2 witness: the theorem applied at a concrete MIP_SOLUTION payload. -/
theorem parse_callback_data_mip_solution_keys_witness :
    ∃ d, parse_callback_data
          { event := 4,
            primal_solution_vector := some { ids := [0, 1], values := [3, 4] } }
          { variable_ids := [0, 1] }
        = .ok d ∧
      d.event = .MIP_SOLUTION ∧
      ∃ m, d.solution = some m ∧
        m.map Prod.fst = [0, 1].map Variable.mk ∧
        m.length = ([0, 1] : List Nat).length :=
  parse_callback_data_mip_solution_keys
    { event := 4,
      primal_solution_vector := some { ids := [0, 1], values := [3, 4] } }
    { variable_ids := [0, 1] } { ids := [0, 1], values := [3, 4] }
    rfl rfl rfl (by decide) (by decide)

/-- C3: for every (ids, values) pair with as many ids as values, distinct
ids, and every id resolvable in the model, decoding the pair into a
variable-to-value mapping (as `parse_callback_data` does) and then
encoding that mapping back into parallel id/value sequences (as
`CallbackResult.to_proto` does for suggested solutions, through
`to_sparse_double_vector_proto`) reproduces the original (id, value)
association: the encoded pair sequence is a permutation of the input pair
sequence, so the association is recovered independently of the order of
the input pairs. -/
theorem decode_encode_roundtrip (mod : Model) (ids : List Nat)
    (values : List ℚ) (hlen : ids.length = values.length)
    (hnd : ids.Nodup) (hmem : ∀ id ∈ ids, id ∈ mod.variable_ids) :
    ∃ m, decodePrimalSolution mod (ids.zip values) [] = .ok m ∧
      ((to_sparse_double_vector_proto m).ids.zip
        (to_sparse_double_vector_proto m).values).Perm (ids.zip values) := by
  have hmem' : ∀ p ∈ ids.zip values, p.1 ∈ mod.variable_ids := by
    intro p hp
    obtain ⟨a, b⟩ := p
    exact hmem a (List.of_mem_zip hp).1
  have hndz : ((ids.zip values).map Prod.fst).Nodup := by
    rw [List.map_fst_zip _ _ hlen.le]
    exact hnd
  have hm : decodePrimalSolution mod (ids.zip values) []
      = .ok ((ids.zip values).map fun p => ((⟨p.1⟩ : Variable), p.2)) := by
    simpa using
      decodePrimalSolution_nodup mod (ids.zip values) [] hmem' hndz (by simp)
  refine ⟨_, hm, ?_⟩
  have h1 : (to_sparse_double_vector_proto
        ((ids.zip values).map fun p => ((⟨p.1⟩ : Variable), p.2))).ids.zip
      (to_sparse_double_vector_proto
        ((ids.zip values).map fun p => ((⟨p.1⟩ : Variable), p.2))).values
      = (List.insertionSort (fun a b => a.1.id ≤ b.1.id)
          ((ids.zip values).map fun p => ((⟨p.1⟩ : Variable), p.2))).map
          (fun p => (p.1.id, p.2)) := by
    simp [to_sparse_double_vector_proto, List.zip_map']
  rw [h1]
  refine ((List.perm_insertionSort _ _).map _).trans ?_
  rw [List.map_map]
  have h2 : (ids.zip values).map
      ((fun p : Variable × ℚ => (p.1.id, p.2)) ∘
        (fun p : Nat × ℚ => ((⟨p.1⟩ : Variable), p.2)))
      = ids.zip values := List.map_id _
  rw [h2]

/-- C3 witness: the theorem applied at concrete out-of-order input:
ids [5, 2] decode to variables 5 and 2, and the sorted wire encoding
still carries the same (id, value) association. -/
theorem decode_encode_roundtrip_witness :
    ∃ m, decodePrimalSolution { variable_ids := [2, 5] }
          (([5, 2] : List Nat).zip ([1, 2] : List ℚ)) [] = .ok m ∧
      ((to_sparse_double_vector_proto m).ids.zip
        (to_sparse_double_vector_proto m).values).Perm
        (([5, 2] : List Nat).zip ([1, 2] : List ℚ)) :=
  decode_encode_roundtrip { variable_ids := [2, 5] } [5, 2] [1, 2]
    rfl (by decide) (by decide)

/-- C9: for every payload whose event code is one of the seven known
`Event` values and whose primal-solution-vector ids all resolve in the
model, `parse_callback_data` succeeds even when the vector carries a
different number of ids than values: it raises no error and returns a
solution mapping built from only the first
`min(len(ids), len(values))` id/value pairs, silently dropping the
surplus entries of the longer sequence. -/
theorem parse_callback_data_truncates_mismatched_vector
    (cb_data : CallbackDataProto) (mod : Model)
    (v : SparseDoubleVectorProto) (e : Event)
    (hev : eventOfCode cb_data.event = .ok e)
    (hv : cb_data.primal_solution_vector = some v)
    (hmem : ∀ id ∈ v.ids, id ∈ mod.variable_ids)
    (_hne : v.ids.length ≠ v.values.length) :
    ∃ m, parse_callback_data cb_data mod
        = .ok { event := e, solution := some m, messages := [],
                runtime := cb_data.runtime,
                presolve_stats := cb_data.presolve_stats,
                simplex_stats := cb_data.simplex_stats,
                barrier_stats := cb_data.barrier_stats,
                mip_stats := cb_data.mip_stats } ∧
      decodePrimalSolution mod
        ((v.ids.take (min v.ids.length v.values.length)).zip
          (v.values.take (min v.ids.length v.values.length))) [] = .ok m := by
  have hmem' : ∀ p ∈ v.ids.zip v.values, p.1 ∈ mod.variable_ids := by
    intro p hp
    obtain ⟨a, b⟩ := p
    exact hmem a (List.of_mem_zip hp).1
  obtain ⟨m, hm⟩ := decodePrimalSolution_ok mod (v.ids.zip v.values) [] hmem'
  refine ⟨m, ?_, ?_⟩
  · simp only [parse_callback_data, hev, hv, hm]
  · rw [zip_take_min]
    exact hm

/-- C9 witness: the theorem applied at a payload with two ids and one
value; the surplus id 1 is silently dropped. -/
theorem parse_callback_data_truncates_mismatched_vector_witness :
    ∃ m, parse_callback_data
          { event := 3,
            primal_solution_vector := some { ids := [0, 1], values := [7] } }
          { variable_ids := [0, 1] }
        = .ok { event := .MIP, solution := some m } ∧
      decodePrimalSolution { variable_ids := [0, 1] }
        ((([0, 1] : List Nat).take
            (min ([0, 1] : List Nat).length ([7] : List ℚ).length)).zip
          (([7] : List ℚ).take
            (min ([0, 1] : List Nat).length ([7] : List ℚ).length))) []
        = .ok m :=
  parse_callback_data_truncates_mismatched_vector
    { event := 3,
      primal_solution_vector := some { ids := [0, 1], values := [7] } }
    { variable_ids := [0, 1] } { ids := [0, 1], values := [7] } .MIP
    rfl rfl (by decide) (by decide)
